import Mathlib

/-
Verification development for the liquid-dsp IIR filter core
(`src/filter/src/iirfilt.c`).  The C code is macro-generic over the
output/coefficient/input numeric types; it is embedded here over an
arbitrary `Field` (the default floating-point build), with the
frequency-response routines instantiated at `ℂ` as in the source
(which always computes the response in `float complex`).

The biquad engine (`iirfiltsos.c`) is not among the given sources; its
operations are modelled from the spec (section 4.1) and are marked as
such in their doc comments.
-/

set_option maxHeartbeats 1000000

/-- Filter structure type: normal (transfer-function) form or
second-order-sections form, mirroring the anonymous `type` enum of
`struct iirfilt_s`. -/
inductive IirfiltType where
  | norm : IirfiltType
  | sos : IirfiltType
  deriving DecidableEq

/-- One biquad (second-order section): 3-tap numerator `b0 b1 b2`,
3-tap denominator `a0 a1 a2`, and the 2-element delay state `v1 v2`
(spec section 3, "Biquad section"). -/
structure Iirfiltsos (α : Type) where
  b0 : α
  b1 : α
  b2 : α
  a0 : α
  a1 : α
  a2 : α
  v1 : α
  v2 : α
  deriving DecidableEq

/-- The `iirfilt` object, mirroring `struct iirfilt_s`: numerator `b`,
denominator `a`, internal state buffer `v`, filter length `n`,
numerator/denominator lengths `nb`/`na`, the structure `type` tag, the
second-order sections `qsos` and their count `nsos`.  Fields that the C
code leaves unused for a given form (`qsos`/`nsos` in normal form, `v`,
`nb`, `na` in SOS form, where the C never even allocates `v`) are kept
at canonical empty/zero values by the constructors. -/
structure Iirfilt (α : Type) where
  b : List α
  a : List α
  v : List α
  n : ℕ
  nb : ℕ
  na : ℕ
  type : IirfiltType
  qsos : List (Iirfiltsos α)
  nsos : ℕ
  deriving DecidableEq

/-- Modelled from the spec: `iirfiltsos_create` lives in `iirfiltsos.c`,
which is not among the given sources.  Per spec section 4.1 it
normalizes the 3-tap coefficient arrays so that the leading denominator
coefficient becomes `1` and zero-initializes the 2-element state.  (In
the floating-point build the normalization is a plain division and the
routine cannot abort.) -/
def iirfiltsos_create {α : Type} [Field α] (b a : Fin 3 → α) : Iirfiltsos α :=
  { b0 := b 0 / a 0
    b1 := b 1 / a 0
    b2 := b 2 / a 0
    a0 := a 0 / a 0
    a1 := a 1 / a 0
    a2 := a 2 / a 0
    v1 := 0
    v2 := 0 }

/-- Modelled from the spec: `iirfiltsos_execute` lives in `iirfiltsos.c`,
which is not among the given sources.  Per spec section 4.1:
`w = x - a1*v1 - a2*v2; y = b0*w + b1*v1 + b2*v2; v2 = v1; v1 = w`. -/
def iirfiltsos_execute {α : Type} [Field α] (q : Iirfiltsos α) (x : α) :
    Iirfiltsos α × α :=
  let w := x - q.a1 * q.v1 - q.a2 * q.v2
  let y := q.b0 * w + q.b1 * q.v1 + q.b2 * q.v2
  ({ q with v1 := w, v2 := q.v1 }, y)

/-- Modelled from the spec: `iirfiltsos_clear` lives in `iirfiltsos.c`,
which is not among the given sources.  Per spec section 4.1 it zeroes
the 2-element state and leaves the coefficients alone. -/
def iirfiltsos_clear {α : Type} [Field α] (q : Iirfiltsos α) : Iirfiltsos α :=
  { q with v1 := 0, v2 := 0 }

/-- `iirfilt_create` (normal transfer-function form), translated from
`IIRFILT(_create)`: a zero numerator or denominator length is a
construction error; otherwise `n = max(na, nb)`, both coefficient
arrays are normalized by `a[0]`, and the state buffer of length `n`
starts zeroed (the C allocates it and immediately calls
`IIRFILT(_clear)`). -/
def iirfilt_create {α : Type} [Field α] (b : List α) (nb : ℕ)
    (a : List α) (na : ℕ) : Except String (Iirfilt α) :=
  if nb = 0 then
    Except.error "numerator length cannot be zero"
  else if na = 0 then
    Except.error "denominator length cannot be zero"
  else
    let n : ℕ := max na nb
    let a0 : α := a.getD 0 0
    Except.ok
      { b := (List.range nb).map (fun i => b.getD i 0 / a0)
        a := (List.range na).map (fun i => a.getD i 0 / a0)
        v := List.replicate n 0
        n := n
        nb := nb
        na := na
        type := IirfiltType.norm
        qsos := []
        nsos := 0 }

/-- `iirfilt_create_sos`, translated from `IIRFILT(_create_sos)`: a zero
section count is a construction error; otherwise the `3*nsos` numerator
and denominator values are copied verbatim into `b`/`a`, one biquad is
built from every coefficient triplet, and `n = nsos*2`. -/
def iirfilt_create_sos {α : Type} [Field α] (B A : List α) (nsos : ℕ) :
    Except String (Iirfilt α) :=
  if nsos = 0 then
    Except.error "filter must have at least one 2nd-order section"
  else
    let b := (List.range (3 * nsos)).map (fun i => B.getD i 0)
    let a := (List.range (3 * nsos)).map (fun i => A.getD i 0)
    Except.ok
      { b := b
        a := a
        v := []
        n := nsos * 2
        nb := 0
        na := 0
        type := IirfiltType.sos
        qsos := (List.range nsos).map (fun i =>
          iirfiltsos_create (fun k => b.getD (3 * i + (k : ℕ)) 0)
            (fun k => a.getD (3 * i + (k : ℕ)) 0))
        nsos := nsos }

/-- `iirfilt_create_dc_blocker`, translated from
`IIRFILT(_create_dc_blocker)`: `a1 = -1 + alpha`, numerator `[1, -1]`,
denominator `[1, a1]`, handed to `iirfilt_create`. -/
def iirfilt_create_dc_blocker {α : Type} [Field α] (alpha : α) :
    Except String (Iirfilt α) :=
  let a1 : α := -1 + alpha
  iirfilt_create [1, -1] 2 [1, a1] 2

/-- `iirfilt_create_pll`, translated from `IIRFILT(_create_pll)`.  The
active-lag coefficient design `iirdes_pll_active_lag` is an external
collaborator (spec section 1 places it out of scope), so it is taken
here as the function parameter `design`; the validation logic and the
final `iirfilt_create_sos` call are translated from the source. -/
def iirfilt_create_pll {α : Type} [LinearOrderedField α]
    (design : α → α → α → (Fin 3 → α) × (Fin 3 → α))
    (w zeta K : α) : Except String (Iirfilt α) :=
  if w ≤ 0 ∨ 1 ≤ w then
    Except.error "bandwidth must be in (0,1)"
  else if zeta ≤ 0 ∨ 1 ≤ zeta then
    Except.error "damping factor must be in (0,1)"
  else if K ≤ 0 then
    Except.error "loop gain must be greater than zero"
  else
    let ba := design w zeta K
    iirfilt_create_sos [ba.1 0, ba.1 1, ba.1 2] [ba.2 0, ba.2 1, ba.2 2] 1

/-- `iirfilt_clear`, translated from `IIRFILT(_clear)`: in SOS form every
section is cleared; in normal form the `n` entries of the state buffer
are set to zero. -/
def iirfilt_clear {α : Type} [Field α] (q : Iirfilt α) : Iirfilt α :=
  match q.type with
  | IirfiltType.sos => { q with qsos := q.qsos.map iirfiltsos_clear }
  | IirfiltType.norm => { q with v := List.replicate q.n 0 }

/-- `iirfilt_execute_norm`, translated from `IIRFILT(_execute_norm)`
(default floating-point branch): the buffer is advanced
(`v[i] = v[i-1]` for `i = n-1 .. 1`), the new head is
`v0 = x - Σ_{i=1}^{na-1} a[i]*v[i]` over the advanced buffer, and the
output is `y = Σ_{i=0}^{nb-1} b[i]*v[i]` over the updated buffer. -/
def iirfilt_execute_norm {α : Type} [Field α] (q : Iirfilt α) (x : α) :
    Iirfilt α × α :=
  let vprev := q.v.take (q.n - 1)
  let v0 := x - ((List.range (q.na - 1)).map
    (fun i => q.a.getD (i + 1) 0 * vprev.getD i 0)).sum
  let vnew := v0 :: vprev
  let y := ((List.range q.nb).map
    (fun i => q.b.getD i 0 * vnew.getD i 0)).sum
  ({ q with v := vnew }, y)

/-- The loop body of `IIRFILT(_execute_sos)`: `t0` is the intermediate
input, `t1` the intermediate output (initially `TO_ZERO`); each section
is executed on `t0` and its output becomes the next `t0`. -/
def sosRun {α : Type} [Field α] (secs : List (Iirfiltsos α)) (t0 t1 : α) :
    List (Iirfiltsos α) × α :=
  match secs with
  | [] => ([], t1)
  | s :: rest =>
      let r := iirfiltsos_execute s t0
      let rr := sosRun rest r.2 r.2
      (r.1 :: rr.1, rr.2)

/-- `iirfilt_execute_sos`, translated from `IIRFILT(_execute_sos)`. -/
def iirfilt_execute_sos {α : Type} [Field α] (q : Iirfilt α) (x : α) :
    Iirfilt α × α :=
  let r := sosRun q.qsos x 0
  ({ q with qsos := r.1 }, r.2)

/-- `iirfilt_execute`, translated from `IIRFILT(_execute)`: dispatch on
the structure type. -/
def iirfilt_execute {α : Type} [Field α] (q : Iirfilt α) (x : α) :
    Iirfilt α × α :=
  match q.type with
  | IirfiltType.norm => iirfilt_execute_norm q x
  | IirfiltType.sos => iirfilt_execute_sos q x

/-- Run a filter over a whole input sequence, threading the state, and
collect the output samples (repeated calls to `iirfilt_execute`). -/
def iirfilt_process {α : Type} [Field α] (q : Iirfilt α) (xs : List α) :
    Iirfilt α × List α :=
  match xs with
  | [] => (q, [])
  | x :: rest =>
      let r := iirfilt_execute q x
      let rr := iirfilt_process r.1 rest
      (rr.1, r.2 :: rr.2)

/-- The output sequence a filter produces on an input sequence. -/
def iirfilt_outputs {α : Type} [Field α] (q : Iirfilt α) (xs : List α) :
    List α :=
  (iirfilt_process q xs).2

/-- The all-zero biquad, used as the junk default for out-of-range
indexing (the C code never reads out of range for a valid filter). -/
def zeroSection (α : Type) [Field α] : Iirfiltsos α :=
  { b0 := 0, b1 := 0, b2 := 0, a0 := 0, a1 := 0, a2 := 0, v1 := 0, v2 := 0 }

/-- The SOS branch of `IIRFILT(_groupdelay)`, translated from the
source: `groupdelay += iirfiltsos_groupdelay(qsos[i], fc) - 2` over the
`nsos` sections, starting from zero.  Modelled from the spec: the
per-section group delay `iirfiltsos_groupdelay` is implemented in
`iirfiltsos.c`, which is not among the given sources, so it is
abstracted as the function parameter `secgd`; the accumulation loop is
the translation of the source. -/
def iirfilt_groupdelay_sos {α : Type} [Field α]
    (secgd : Iirfiltsos α → α → α) (q : Iirfilt α) (fc : α) : α :=
  (List.range q.nsos).foldl
    (fun g i => g + (secgd (q.qsos.getD i (zeroSection α)) fc - 2)) 0

/-- `iirfilt_freqresponse_sos`, translated from
`IIRFILT(_freqresponse_sos)` (default floating-point branch).  Faithful
to the source: the denominator pointer is taken from `_q->b`
(`TC * a = &_q->b[3*i];`), so `Ha` below is computed over the numerator
coefficients as well. -/
noncomputable def iirfilt_freqresponse_sos (q : Iirfilt ℂ) (fc : ℝ) : ℂ :=
  (List.range q.nsos).foldl (fun H i =>
    let Hb :=
      q.b.getD (3 * i) 0 * Complex.exp (Complex.I * 2 * (Real.pi : ℂ) * (fc : ℂ) * 0) +
      q.b.getD (3 * i + 1) 0 * Complex.exp (Complex.I * 2 * (Real.pi : ℂ) * (fc : ℂ) * 1) +
      q.b.getD (3 * i + 2) 0 * Complex.exp (Complex.I * 2 * (Real.pi : ℂ) * (fc : ℂ) * 2)
    let Ha :=
      q.b.getD (3 * i) 0 * Complex.exp (Complex.I * 2 * (Real.pi : ℂ) * (fc : ℂ) * 0) +
      q.b.getD (3 * i + 1) 0 * Complex.exp (Complex.I * 2 * (Real.pi : ℂ) * (fc : ℂ) * 1) +
      q.b.getD (3 * i + 2) 0 * Complex.exp (Complex.I * 2 * (Real.pi : ℂ) * (fc : ℂ) * 2)
    H * (Hb / Ha)) 1

/-- Reference definition following the spec's words for the SOS
frequency response: the product over the sections of `Hb(fc)/Ha(fc)`,
where `Hb` is the 3-term DFT sum of the section's numerator and `Ha`
the 3-term DFT sum of the section's denominator (read from `_q->a`). -/
noncomputable def iirfilt_freqresponse_sos_specref (q : Iirfilt ℂ) (fc : ℝ) : ℂ :=
  (List.range q.nsos).foldl (fun H i =>
    let Hb :=
      q.b.getD (3 * i) 0 * Complex.exp (Complex.I * 2 * (Real.pi : ℂ) * (fc : ℂ) * 0) +
      q.b.getD (3 * i + 1) 0 * Complex.exp (Complex.I * 2 * (Real.pi : ℂ) * (fc : ℂ) * 1) +
      q.b.getD (3 * i + 2) 0 * Complex.exp (Complex.I * 2 * (Real.pi : ℂ) * (fc : ℂ) * 2)
    let Ha :=
      q.a.getD (3 * i) 0 * Complex.exp (Complex.I * 2 * (Real.pi : ℂ) * (fc : ℂ) * 0) +
      q.a.getD (3 * i + 1) 0 * Complex.exp (Complex.I * 2 * (Real.pi : ℂ) * (fc : ℂ) * 1) +
      q.a.getD (3 * i + 2) 0 * Complex.exp (Complex.I * 2 * (Real.pi : ℂ) * (fc : ℂ) * 2)
    H * (Hb / Ha)) 1

/-- Reference definition following the spec's words for SOS execution:
the input is fed to the first section, each section's output is the
next section's input, and the last section's output is the result. -/
def sosCascadeSpec {α : Type} [Field α] (secs : List (Iirfiltsos α)) (x : α) :
    List (Iirfiltsos α) × α :=
  match secs with
  | [] => ([], x)
  | s :: rest =>
      let r := iirfiltsos_execute s x
      let rr := sosCascadeSpec rest r.2
      (r.1 :: rr.1, rr.2)

/-- Boolean error test for `Except` results. -/
def exceptIsError {ε β : Type} (e : Except ε β) : Bool :=
  match e with
  | Except.error _ => true
  | Except.ok _ => false

/-- The coefficient part of a biquad (everything except the state). -/
def sosCoeffs {α : Type} (s : Iirfiltsos α) : α × α × α × α × α × α :=
  (s.b0, s.b1, s.b2, s.a0, s.a1, s.a2)

/-- Two filters carry identical configuration: same coefficient arrays,
lengths, structure type, section count, and sectionwise coefficients. -/
def sameConfig {α : Type} (q q0 : Iirfilt α) : Prop :=
  q.b = q0.b ∧ q.a = q0.a ∧ q.n = q0.n ∧ q.nb = q0.nb ∧ q.na = q0.na ∧
  q.type = q0.type ∧ q.nsos = q0.nsos ∧
  q.qsos.map sosCoeffs = q0.qsos.map sosCoeffs

/-- The fields the C code leaves unused for the given form are at their
canonical values (the constructors establish this). -/
def canonicalUnused {α : Type} (q : Iirfilt α) : Prop :=
  (q.type = IirfiltType.norm → q.qsos = []) ∧
  (q.type = IirfiltType.sos → q.v = [])

/-- A filter is in the freshly-constructed state: zero state buffer in
normal form (and no sections), zero section states in SOS form (and no
flat buffer, which the C never allocates for SOS filters). -/
def freshState {α : Type} [Field α] (q : Iirfilt α) : Prop :=
  (q.type = IirfiltType.norm → q.v = List.replicate q.n 0 ∧ q.qsos = []) ∧
  (q.type = IirfiltType.sos → q.v = [] ∧ ∀ s ∈ q.qsos, s.v1 = 0 ∧ s.v2 = 0)

/-- Sum of a mapped `List.range` as a `Finset.range` sum. -/
theorem list_range_map_sum {M : Type} [AddCommMonoid M] (n : ℕ) (f : ℕ → M) :
    ((List.range n).map f).sum = ∑ i ∈ Finset.range n, f i := by
  induction n with
  | zero => simp
  | succ m ih =>
      rw [List.range_succ, Finset.sum_range_succ, List.map_append,
        List.sum_append, ih]
      simp

/-- `getD` commutes with `take` below the cut. -/
theorem getD_take {β : Type} :
    ∀ (l : List β) (m j : ℕ) (d : β), j < m →
      (l.take m).getD j d = l.getD j d := by
  intro l
  induction l with
  | nil => intro m j d _; simp
  | cons x xs ih =>
      intro m j d hjm
      cases m with
      | zero => omega
      | succ m =>
          cases j with
          | zero => simp
          | succ j => simpa using ih m j d (by omega)

/-- `getD` on a mapped `List.range` evaluates the function. -/
theorem getD_map_range {β : Type} (f : ℕ → β) (d : β) :
    ∀ (n i : ℕ), i < n → (((List.range n).map f).getD i d) = f i := by
  intro n
  induction n with
  | zero => intro i h; omega
  | succ m ih =>
      intro i h
      rw [List.range_succ, List.map_append]
      rcases Nat.lt_or_ge i m with him | him
      · rw [List.getD_append _ _ _ _ (by simpa using him)]
        exact ih i him
      · have hi : i = m := by omega
        subst hi
        rw [List.getD_append_right _ _ _ _ (by simp)]
        simp

/-- `sosRun` touches only the section states: the coefficient part of
every section survives execution. -/
theorem sosRun_map_coeffs {α : Type} [Field α] :
    ∀ (secs : List (Iirfiltsos α)) (t0 t1 : α),
      ((sosRun secs t0 t1).1).map sosCoeffs = secs.map sosCoeffs := by
  intro secs
  induction secs with
  | nil => intro t0 t1; rfl
  | cons s rest ih =>
      intro t0 t1
      simp [sosRun, sosCoeffs, iirfiltsos_execute, ih]

/-- On a nonempty section list the source loop of
`IIRFILT(_execute_sos)` computes exactly the series cascade. -/
theorem sosRun_eq_cascade {α : Type} [Field α] :
    ∀ (secs : List (Iirfiltsos α)) (t0 t1 : α), secs ≠ [] →
      sosRun secs t0 t1 = sosCascadeSpec secs t0 := by
  intro secs
  induction secs with
  | nil => intro t0 t1 h; exact absurd rfl h
  | cons s rest ih =>
      intro t0 t1 _
      by_cases hr : rest = []
      · subst hr; simp [sosRun, sosCascadeSpec]
      · simp [sosRun, sosCascadeSpec, ih _ _ hr]

/-- C2: for a validly constructed SOS-form filter (at least one
section), `execute` feeds the input into the first section, chains each
section's output into the next section's input, and returns the last
section's output, updating the section states accordingly. -/
theorem iirfilt_execute_sos_claim {α : Type} [Field α] (q : Iirfilt α) (x : α)
    (hty : q.type = IirfiltType.sos) (hne : q.qsos ≠ []) :
    iirfilt_execute q x
      = ({ q with qsos := (sosCascadeSpec q.qsos x).1 },
         (sosCascadeSpec q.qsos x).2) := by
  simp [iirfilt_execute, hty, iirfilt_execute_sos,
    sosRun_eq_cascade q.qsos x 0 hne]

/-- C2 witness: the theorem applied to a concrete one-section SOS
filter over `ℚ`. -/
theorem iirfilt_execute_sos_claim_witness :
    (⟨[1, 0, 0], [1, (1 : ℚ)/2, 0], [], 2, 0, 0, IirfiltType.sos,
        [⟨1, 0, 0, 1, 1/2, 0, 0, 0⟩], 1⟩ : Iirfilt ℚ).type = IirfiltType.sos ∧
    (⟨[1, 0, 0], [1, (1 : ℚ)/2, 0], [], 2, 0, 0, IirfiltType.sos,
        [⟨1, 0, 0, 1, 1/2, 0, 0, 0⟩], 1⟩ : Iirfilt ℚ).qsos ≠ [] ∧
    iirfilt_execute
        (⟨[1, 0, 0], [1, (1 : ℚ)/2, 0], [], 2, 0, 0, IirfiltType.sos,
          [⟨1, 0, 0, 1, 1/2, 0, 0, 0⟩], 1⟩ : Iirfilt ℚ) 3
      = ({ (⟨[1, 0, 0], [1, (1 : ℚ)/2, 0], [], 2, 0, 0, IirfiltType.sos,
            [⟨1, 0, 0, 1, 1/2, 0, 0, 0⟩], 1⟩ : Iirfilt ℚ) with
          qsos := (sosCascadeSpec
            [(⟨1, 0, 0, 1, 1/2, 0, 0, 0⟩ : Iirfiltsos ℚ)] 3).1 },
         (sosCascadeSpec [(⟨1, 0, 0, 1, 1/2, 0, 0, 0⟩ : Iirfiltsos ℚ)] 3).2) :=
  ⟨by decide, by decide,
    iirfilt_execute_sos_claim _ 3 (by decide) (by decide)⟩

/-- C9: `create_dc_blocker(alpha)` yields a filter whose stored
numerator is `[1, -1]` and whose stored denominator is
`[1, alpha - 1]`, realizing `H(z) = (1 - z^-1)/(1 - (1-alpha) z^-1)`. -/
theorem iirfilt_create_dc_blocker_claim {α : Type} [Field α] (alpha : α) :
    (iirfilt_create_dc_blocker alpha).map Iirfilt.b = Except.ok [1, -1] ∧
    (iirfilt_create_dc_blocker alpha).map Iirfilt.a
      = Except.ok [1, alpha - 1] := by
  refine ⟨?_, ?_⟩ <;>
    simp [iirfilt_create_dc_blocker, iirfilt_create, Except.map,
      List.range_succ, List.range_zero] <;>
    ring_nf

/-- C10: `execute` changes only the internal state: the coefficient
arrays, all lengths, the section count, the structure tag, and every
section's coefficients are untouched, in both forms. -/
theorem iirfilt_execute_frame_claim {α : Type} [Field α] (q : Iirfilt α) (x : α) :
    (iirfilt_execute q x).1.b = q.b ∧ (iirfilt_execute q x).1.a = q.a ∧
    (iirfilt_execute q x).1.n = q.n ∧ (iirfilt_execute q x).1.nb = q.nb ∧
    (iirfilt_execute q x).1.na = q.na ∧
    (iirfilt_execute q x).1.nsos = q.nsos ∧
    (iirfilt_execute q x).1.type = q.type ∧
    ((iirfilt_execute q x).1.qsos).map sosCoeffs = q.qsos.map sosCoeffs := by
  cases hty : q.type <;>
    simp [iirfilt_execute, hty, iirfilt_execute_norm, iirfilt_execute_sos,
      sosRun_map_coeffs]

/-- C1: on a validly constructed normal-form filter, `execute` advances
the state buffer (entry `i` becomes the previous entry `i-1`, most
recent value first), writes `v[0] = x - Σ_{i=1}^{na-1} a[i]*v[i]` over
the advanced buffer, and returns `y = Σ_{i=0}^{nb-1} b[i]*v[i]` over
the updated buffer. -/
theorem iirfilt_execute_norm_claim {α : Type} [Field α] (q : Iirfilt α)
    (x : α)
    (hty : q.type = IirfiltType.norm)
    (hna : 1 ≤ q.na) (hnb : 1 ≤ q.nb)
    (hn : q.n = max q.na q.nb) (hv : q.v.length = q.n) :
    (∀ i : ℕ, 1 ≤ i → i < q.n →
      (iirfilt_execute q x).1.v.getD i 0 = q.v.getD (i - 1) 0) ∧
    (iirfilt_execute q x).1.v.getD 0 0
      = x - ∑ i ∈ Finset.range (q.na - 1),
          q.a.getD (i + 1) 0 * (iirfilt_execute q x).1.v.getD (i + 1) 0 ∧
    (iirfilt_execute q x).2
      = ∑ i ∈ Finset.range q.nb,
          q.b.getD i 0 * (iirfilt_execute q x).1.v.getD i 0 := by
  have hex : iirfilt_execute q x = iirfilt_execute_norm q x := by
    simp [iirfilt_execute, hty]
  rw [hex]
  simp only [iirfilt_execute_norm]
  refine ⟨?_, ?_, ?_⟩
  · intro i h1 h2
    cases i with
    | zero => omega
    | succ j =>
        rw [List.getD_cons_succ, getD_take _ _ _ _ (by omega)]
        simp
  · rw [List.getD_cons_zero, list_range_map_sum]
    simp only [List.getD_cons_succ]
  · rw [list_range_map_sum]

/-- A concrete normal-form filter over `ℚ` with nonzero state, used to
instantiate the normal-form execution theorem. -/
def qNormEx : Iirfilt ℚ :=
  { b := [1, -1], a := [1, -9/10], v := [2, 5], n := 2, nb := 2, na := 2,
    type := IirfiltType.norm, qsos := [], nsos := 0 }

/-- C1 witness: the normal-form execution theorem applied to `qNormEx`
with input sample `1`. -/
theorem iirfilt_execute_norm_claim_witness :
    (qNormEx.type = IirfiltType.norm ∧ 1 ≤ qNormEx.na ∧ 1 ≤ qNormEx.nb ∧
      qNormEx.n = max qNormEx.na qNormEx.nb ∧
      qNormEx.v.length = qNormEx.n) ∧
    ((∀ i : ℕ, 1 ≤ i → i < qNormEx.n →
        (iirfilt_execute qNormEx 1).1.v.getD i 0 = qNormEx.v.getD (i - 1) 0) ∧
      (iirfilt_execute qNormEx 1).1.v.getD 0 0
        = 1 - ∑ i ∈ Finset.range (qNormEx.na - 1),
            qNormEx.a.getD (i + 1) 0
              * (iirfilt_execute qNormEx 1).1.v.getD (i + 1) 0 ∧
      (iirfilt_execute qNormEx 1).2
        = ∑ i ∈ Finset.range qNormEx.nb,
            qNormEx.b.getD i 0 * (iirfilt_execute qNormEx 1).1.v.getD i 0) :=
  ⟨⟨by decide, by decide, by decide, by decide, by decide⟩,
    iirfilt_execute_norm_claim qNormEx 1 (by decide) (by decide) (by decide)
      (by decide) (by decide)⟩

/-- C3: for nonempty coefficient arrays with `a[0] ≠ 0`, construction
succeeds and stores `b[i]/a[0]` and `a[i]/a[0]`; in particular the
stored leading denominator coefficient is `1`. -/
theorem iirfilt_create_normalizes {α : Type} [Field α]
    (b a : List α) (nb na : ℕ)
    (hnb : 1 ≤ nb) (hna : 1 ≤ na) (ha0 : a.getD 0 0 ≠ 0) :
    ∃ q : Iirfilt α, iirfilt_create b nb a na = Except.ok q ∧
      (∀ i : ℕ, i < nb → q.b.getD i 0 = b.getD i 0 / a.getD 0 0) ∧
      (∀ i : ℕ, i < na → q.a.getD i 0 = a.getD i 0 / a.getD 0 0) ∧
      q.a.getD 0 0 = 1 := by
  have hnb0 : ¬(nb = 0) := by omega
  have hna0 : ¬(na = 0) := by omega
  unfold iirfilt_create
  rw [if_neg hnb0, if_neg hna0]
  refine ⟨_, rfl, ?_, ?_, ?_⟩
  · intro i hi
    rw [getD_map_range _ _ _ _ hi]
  · intro i hi
    rw [getD_map_range _ _ _ _ hi]
  · rw [getD_map_range _ _ _ _ (by omega)]
    exact div_self ha0

/-- C3 witness: the normalization theorem applied to `b = [2, 4]`,
`a = [2, 6]` over `ℚ`. -/
theorem iirfilt_create_normalizes_witness :
    (1 ≤ 2 ∧ 1 ≤ 2 ∧ ([(2 : ℚ), 6].getD 0 0 ≠ 0)) ∧
    (∃ q : Iirfilt ℚ, iirfilt_create [2, 4] 2 [2, 6] 2 = Except.ok q ∧
      (∀ i : ℕ, i < 2 → q.b.getD i 0 = [(2 : ℚ), 4].getD i 0 / [(2 : ℚ), 6].getD 0 0) ∧
      (∀ i : ℕ, i < 2 → q.a.getD i 0 = [(2 : ℚ), 6].getD i 0 / [(2 : ℚ), 6].getD 0 0) ∧
      q.a.getD 0 0 = 1) :=
  ⟨⟨by decide, by decide, by decide⟩,
    iirfilt_create_normalizes [2, 4] [2, 6] 2 2 (by decide) (by decide)
      (by decide)⟩

/-- The group-delay accumulation loop evaluates to the section sum
minus two per section, for any per-section group-delay function. -/
theorem groupdelay_fold {α : Type} [Field α] (secgd : Iirfiltsos α → α → α)
    (fc : α) :
    ∀ (l : List (Iirfiltsos α)) (g0 : α),
      (List.range l.length).foldl
          (fun g i => g + (secgd (l.getD i (zeroSection α)) fc - 2)) g0
        = g0 + ((l.map (fun s => secgd s fc)).sum - 2 * (l.length : α)) := by
  intro l
  induction l with
  | nil => intro g0; simp
  | cons s rest ih =>
      intro g0
      rw [List.length_cons, List.range_succ_eq_map, List.foldl_cons,
        List.foldl_map]
      simp only [List.getD_cons_zero, List.getD_cons_succ]
      rw [ih]
      simp only [List.map_cons, List.sum_cons]
      push_cast
      ring

/-- C5: for an SOS filter whose section list matches its section count,
the group delay is the sum of the per-section group delays minus `2`
samples per section (`2 * nsos` in total), whatever the per-section
group-delay function computes. -/
theorem iirfilt_groupdelay_sos_claim {α : Type} [Field α]
    (secgd : Iirfiltsos α → α → α) (q : Iirfilt α) (fc : α)
    (hlen : q.qsos.length = q.nsos) :
    iirfilt_groupdelay_sos secgd q fc
      = (q.qsos.map (fun s => secgd s fc)).sum - 2 * (q.nsos : α) := by
  simp only [iirfilt_groupdelay_sos]
  rw [← hlen, groupdelay_fold, zero_add]

/-- A concrete one-section SOS filter over `ℚ`. -/
def qSosEx : Iirfilt ℚ :=
  { b := [1, 0, 0], a := [1, 0, 0], v := [], n := 2, nb := 0, na := 0,
    type := IirfiltType.sos,
    qsos := [{ b0 := 1, b1 := 0, b2 := 0, a0 := 1, a1 := 0, a2 := 0,
               v1 := 0, v2 := 0 }],
    nsos := 1 }

/-- C5 witness: the group-delay theorem applied to `qSosEx` with the
constant per-section group-delay function `5`. -/
theorem iirfilt_groupdelay_sos_claim_witness :
    qSosEx.qsos.length = qSosEx.nsos ∧
    iirfilt_groupdelay_sos (fun _ _ => (5 : ℚ)) qSosEx 0
      = (qSosEx.qsos.map (fun s => (fun _ _ => (5 : ℚ)) s 0)).sum
        - 2 * (qSosEx.nsos : ℚ) :=
  ⟨by decide, iirfilt_groupdelay_sos_claim _ qSosEx 0 (by decide)⟩

/-- `iirfilt_create_sos` errors exactly on a zero section count. -/
theorem iirfilt_create_sos_isError {α : Type} [Field α] (B A : List α)
    (nsos : ℕ) :
    exceptIsError (iirfilt_create_sos B A nsos) = true ↔ nsos = 0 := by
  unfold iirfilt_create_sos
  split_ifs with h
  · simp [exceptIsError, h]
  · simp [exceptIsError, h]

/-- The shape of any successfully constructed SOS filter. -/
theorem iirfilt_create_sos_ok_fields {α : Type} [Field α] {B A : List α}
    {nsos : ℕ} {q : Iirfilt α}
    (h : iirfilt_create_sos B A nsos = Except.ok q) :
    q.type = IirfiltType.sos ∧ q.nsos = nsos ∧ q.qsos.length = nsos ∧
      q.n = nsos * 2 := by
  unfold iirfilt_create_sos at h
  split_ifs at h with h0
  simp only [Except.ok.injEq] at h
  subst h
  refine ⟨rfl, rfl, by simp, rfl⟩

/-- C7: `create_pll` fails exactly when the bandwidth leaves `(0,1)`,
the damping factor leaves `(0,1)`, or the loop gain is not positive;
any successful construction is an SOS filter with exactly one
second-order section and filter length `n = 2`. -/
theorem iirfilt_create_pll_claim {α : Type} [LinearOrderedField α]
    (design : α → α → α → (Fin 3 → α) × (Fin 3 → α)) (w zeta K : α) :
    (exceptIsError (iirfilt_create_pll design w zeta K) = true
      ↔ (w ≤ 0 ∨ 1 ≤ w ∨ zeta ≤ 0 ∨ 1 ≤ zeta ∨ K ≤ 0)) ∧
    (∀ q : Iirfilt α, iirfilt_create_pll design w zeta K = Except.ok q →
      q.type = IirfiltType.sos ∧ q.nsos = 1 ∧ q.qsos.length = 1 ∧
        q.n = 2) := by
  constructor
  · unfold iirfilt_create_pll
    split_ifs with h1 h2 h3
    · simp only [exceptIsError]
      tauto
    · simp only [exceptIsError]
      tauto
    · simp only [exceptIsError]
      tauto
    · rw [iirfilt_create_sos_isError]
      simp only [one_ne_zero, false_iff]
      push_neg at h1 h2 h3
      intro hcon
      rcases hcon with h | h | h | h | h
      · exact absurd h (not_le.mpr h1.1)
      · exact absurd h (not_le.mpr h1.2)
      · exact absurd h (not_le.mpr h2.1)
      · exact absurd h (not_le.mpr h2.2)
      · exact absurd h (not_le.mpr h3)
  · intro q hq
    unfold iirfilt_create_pll at hq
    split_ifs at hq
    obtain ⟨ht, hns, hlen, hn⟩ := iirfilt_create_sos_ok_fields hq
    exact ⟨ht, hns, hlen, by rw [hn]⟩


/-- C7 witness: the PLL construction theorem applied at
`bandwidth = 1/2`, `damping = 707/1000`, `loop_gain = 1000` with the
all-zero design collaborator over `ℚ`. -/
theorem iirfilt_create_pll_claim_witness :
    ∃ q : Iirfilt ℚ,
      iirfilt_create_pll (fun _ _ _ => (fun _ => 0, fun _ => 0))
          (1/2 : ℚ) (707/1000) 1000 = Except.ok q ∧
      (q.type = IirfiltType.sos ∧ q.nsos = 1 ∧ q.qsos.length = 1 ∧
        q.n = 2) := by
  cases hq : iirfilt_create_pll (fun _ _ _ => (fun _ => 0, fun _ => 0))
      (1/2 : ℚ) (707/1000) 1000 with
  | error e =>
      have h := (iirfilt_create_pll_claim
        (fun _ _ _ => (fun _ => 0, fun _ => 0)) (1/2 : ℚ) (707/1000) 1000).1
      rw [hq] at h
      have hcon := h.mp rfl
      rcases hcon with h1 | h1 | h1 | h1 | h1 <;> norm_num at h1
  | ok q =>
      exact ⟨q, rfl,
        (iirfilt_create_pll_claim (fun _ _ _ => (fun _ => 0, fun _ => 0))
          (1/2 : ℚ) (707/1000) 1000).2 q hq⟩

/-- C8: `create` fails exactly when the numerator or denominator length
is zero, and any success has `n = max(na, nb)` and a zeroed state
buffer of length `n`; `create_sos` fails exactly when the section count
is zero, and any success has exactly `nsos` sections and `n = 2*nsos`. -/
theorem iirfilt_create_validation_claim {α : Type} [Field α] :
    (∀ (b a : List α) (nb na : ℕ),
        exceptIsError (iirfilt_create b nb a na) = true ↔ nb = 0 ∨ na = 0) ∧
    (∀ (b a : List α) (nb na : ℕ) (q : Iirfilt α),
        iirfilt_create b nb a na = Except.ok q →
          q.n = max na nb ∧ q.v = List.replicate q.n 0) ∧
    (∀ (B A : List α) (nsos : ℕ),
        exceptIsError (iirfilt_create_sos B A nsos) = true ↔ nsos = 0) ∧
    (∀ (B A : List α) (nsos : ℕ) (q : Iirfilt α),
        iirfilt_create_sos B A nsos = Except.ok q →
          q.qsos.length = nsos ∧ q.n = 2 * nsos) := by
  refine ⟨?_, ?_, ?_, ?_⟩
  · intro b a nb na
    unfold iirfilt_create
    split_ifs with h1 h2
    · simp only [exceptIsError]
      tauto
    · simp only [exceptIsError]
      tauto
    · simp only [exceptIsError]
      constructor
      · intro hfalse
        exact absurd hfalse (by simp)
      · intro hcon
        tauto
  · intro b a nb na q hq
    unfold iirfilt_create at hq
    split_ifs at hq with h1 h2
    simp only [Except.ok.injEq] at hq
    subst hq
    exact ⟨rfl, rfl⟩
  · intro B A nsos
    exact iirfilt_create_sos_isError B A nsos
  · intro B A nsos q hq
    obtain ⟨-, -, hlen, hn⟩ := iirfilt_create_sos_ok_fields hq
    exact ⟨hlen, by rw [hn, Nat.mul_comm]⟩

/-- C8 witness: the construction-validation theorem applied to the
concrete constructions `create([1],1,[2],1)` and
`create_sos([1,0,0],[1,0,0],1)` over `ℚ`. -/
theorem iirfilt_create_validation_claim_witness :
    (∃ q : Iirfilt ℚ, iirfilt_create [1] 1 [2] 1 = Except.ok q ∧
      q.n = max 1 1 ∧ q.v = List.replicate q.n 0) ∧
    (∃ q : Iirfilt ℚ, iirfilt_create_sos [1, 0, 0] [1, 0, 0] 1
        = Except.ok q ∧
      q.qsos.length = 1 ∧ q.n = 2 * 1) := by
  constructor
  · cases hq : iirfilt_create [(1 : ℚ)] 1 [2] 1 with
    | error e =>
        have h := (iirfilt_create_validation_claim (α := ℚ)).1 [1] [2] 1 1
        rw [hq] at h
        rcases h.mp rfl with h1 | h1 <;> exact absurd h1 one_ne_zero
    | ok q =>
        exact ⟨q, rfl,
          (iirfilt_create_validation_claim (α := ℚ)).2.1 [1] [2] 1 1 q hq⟩
  · cases hq : iirfilt_create_sos [(1 : ℚ), 0, 0] [1, 0, 0] 1 with
    | error e =>
        have h := (iirfilt_create_validation_claim (α := ℚ)).2.2.1
          [1, 0, 0] [1, 0, 0] 1
        rw [hq] at h
        exact absurd (h.mp rfl) one_ne_zero
    | ok q =>
        exact ⟨q, rfl,
          (iirfilt_create_validation_claim (α := ℚ)).2.2.2
            [1, 0, 0] [1, 0, 0] 1 q hq⟩

/-- A cleared section list equals any section list that has the same
coefficients and already-zero states. -/
theorem clear_map_eq {α : Type} [Field α] :
    ∀ (l l0 : List (Iirfiltsos α)),
      l.map sosCoeffs = l0.map sosCoeffs →
      (∀ s ∈ l0, s.v1 = 0 ∧ s.v2 = 0) →
      l.map iirfiltsos_clear = l0 := by
  intro l
  induction l with
  | nil =>
      intro l0 h _
      cases l0 with
      | nil => rfl
      | cons t rest0 => simp at h
  | cons s rest ih =>
      intro l0 h hz
      cases l0 with
      | nil => simp at h
      | cons t rest0 =>
          simp only [List.map_cons, List.cons.injEq] at h
          have ht := hz t (by simp)
          have hrest := ih rest0 h.2 (fun u hu => hz u (by simp [hu]))
          have hhead : iirfiltsos_clear s = t := by
            obtain ⟨sb0, sb1, sb2, sa0, sa1, sa2, sv1, sv2⟩ := s
            obtain ⟨tb0, tb1, tb2, ta0, ta1, ta2, tv1, tv2⟩ := t
            simp only [sosCoeffs, Prod.mk.injEq] at h
            obtain ⟨hv1, hv2⟩ := ht
            obtain ⟨⟨e1, e2, e3, e4, e5, e6⟩, -⟩ := h
            simp_all [iirfiltsos_clear]
          simp only [List.map_cons, hhead, hrest]

/-- C6: `clear` zeroes all internal state (the normal-form buffer, or
every section's state in SOS form), leaves every coefficient, length
and the structure tag unchanged, and a cleared filter produces the same
output sequence as a freshly constructed filter with the same
configuration on any input sequence. -/
theorem iirfilt_clear_claim {α : Type} [Field α] (q q0 : Iirfilt α)
    (xs : List α)
    (hcfg : sameConfig q q0) (hq : canonicalUnused q)
    (h0 : freshState q0) :
    ((iirfilt_clear q).b = q.b ∧ (iirfilt_clear q).a = q.a ∧
      (iirfilt_clear q).n = q.n ∧ (iirfilt_clear q).nb = q.nb ∧
      (iirfilt_clear q).na = q.na ∧ (iirfilt_clear q).type = q.type ∧
      (iirfilt_clear q).nsos = q.nsos ∧
      ((iirfilt_clear q).qsos).map sosCoeffs = q.qsos.map sosCoeffs) ∧
    (q.type = IirfiltType.norm →
      (iirfilt_clear q).v = List.replicate q.n 0) ∧
    (q.type = IirfiltType.sos →
      ∀ s ∈ (iirfilt_clear q).qsos, s.v1 = 0 ∧ s.v2 = 0) ∧
    iirfilt_outputs (iirfilt_clear q) xs = iirfilt_outputs q0 xs := by
  have hclear : iirfilt_clear q = q0 := by
    obtain ⟨hb, ha, hn, hnb, hna, hty, hns, hqs⟩ := hcfg
    cases htyq : q.type with
    | norm =>
        have hty0 : q0.type = IirfiltType.norm := by rw [← hty, htyq]
        obtain ⟨h0v, h0nil⟩ := h0.1 hty0
        have hqnil : q.qsos = [] := hq.1 htyq
        obtain ⟨b1, a1, v1, n1, nb1, na1, t1, s1, ns1⟩ := q
        obtain ⟨b2, a2, v2, n2, nb2, na2, t2, s2, ns2⟩ := q0
        simp only at htyq hty0 hb ha hn hnb hna hty hns hqs hqnil h0v h0nil
        subst htyq hty0
        simp_all [iirfilt_clear]
    | sos =>
        have hty0 : q0.type = IirfiltType.sos := by rw [← hty, htyq]
        obtain ⟨h0v, h0z⟩ := h0.2 hty0
        have hqv : q.v = [] := hq.2 htyq
        have hmap : q.qsos.map iirfiltsos_clear = q0.qsos :=
          clear_map_eq _ _ hqs h0z
        obtain ⟨b1, a1, v1, n1, nb1, na1, t1, s1, ns1⟩ := q
        obtain ⟨b2, a2, v2, n2, nb2, na2, t2, s2, ns2⟩ := q0
        simp only at htyq hty0 hb ha hn hnb hna hty hns hqv hmap h0v
        subst htyq hty0
        simp_all [iirfilt_clear]
  refine ⟨?_, ?_, ?_, ?_⟩
  · cases htyq : q.type with
    | norm => simp [iirfilt_clear, htyq]
    | sos =>
        refine ⟨by simp [iirfilt_clear, htyq], by simp [iirfilt_clear, htyq],
          by simp [iirfilt_clear, htyq], by simp [iirfilt_clear, htyq],
          by simp [iirfilt_clear, htyq], by simp [iirfilt_clear, htyq],
          by simp [iirfilt_clear, htyq], ?_⟩
        simp only [iirfilt_clear, htyq, List.map_map]
        refine List.map_congr_left (fun s _ => ?_)
        simp [Function.comp, sosCoeffs, iirfiltsos_clear]
  · intro htyq
    simp [iirfilt_clear, htyq]
  · intro htyq
    simp only [iirfilt_clear, htyq]
    intro s hs
    rw [List.mem_map] at hs
    obtain ⟨u, -, hu⟩ := hs
    rw [← hu]
    exact ⟨rfl, rfl⟩
  · rw [hclear]

/-- A normal-form filter over `ℚ` with leftover state in its buffer. -/
def qDirtyEx : Iirfilt ℚ :=
  { b := [1, -1], a := [1, -2], v := [3, 4], n := 2, nb := 2, na := 2,
    type := IirfiltType.norm, qsos := [], nsos := 0 }

/-- The freshly-constructed counterpart of `qDirtyEx`: same
configuration, zero state. -/
def qFreshEx : Iirfilt ℚ :=
  { b := [1, -1], a := [1, -2], v := [0, 0], n := 2, nb := 2, na := 2,
    type := IirfiltType.norm, qsos := [], nsos := 0 }

/-- C6 witness: the clear theorem applied to `qDirtyEx`, its fresh
counterpart `qFreshEx`, and the input sequence `[1, 2]`. -/
theorem iirfilt_clear_claim_witness :
    (sameConfig qDirtyEx qFreshEx ∧ canonicalUnused qDirtyEx ∧
      freshState qFreshEx) ∧
    (((iirfilt_clear qDirtyEx).b = qDirtyEx.b ∧
      (iirfilt_clear qDirtyEx).a = qDirtyEx.a ∧
      (iirfilt_clear qDirtyEx).n = qDirtyEx.n ∧
      (iirfilt_clear qDirtyEx).nb = qDirtyEx.nb ∧
      (iirfilt_clear qDirtyEx).na = qDirtyEx.na ∧
      (iirfilt_clear qDirtyEx).type = qDirtyEx.type ∧
      (iirfilt_clear qDirtyEx).nsos = qDirtyEx.nsos ∧
      ((iirfilt_clear qDirtyEx).qsos).map sosCoeffs
        = qDirtyEx.qsos.map sosCoeffs) ∧
    (qDirtyEx.type = IirfiltType.norm →
      (iirfilt_clear qDirtyEx).v = List.replicate qDirtyEx.n 0) ∧
    (qDirtyEx.type = IirfiltType.sos →
      ∀ s ∈ (iirfilt_clear qDirtyEx).qsos, s.v1 = 0 ∧ s.v2 = 0) ∧
    iirfilt_outputs (iirfilt_clear qDirtyEx) [1, 2]
      = iirfilt_outputs qFreshEx [1, 2]) :=
  ⟨⟨by unfold sameConfig; decide, by unfold canonicalUnused; decide,
      by unfold freshState; decide⟩,
    iirfilt_clear_claim qDirtyEx qFreshEx [1, 2]
      (by unfold sameConfig; decide) (by unfold canonicalUnused; decide)
      (by unfold freshState; decide)⟩

/-- C4: evaluating the SOS frequency response at `fc = 0` on the filter
built from `B = [1,0,0]`, `A = [2,0,0]` with one section.  The source
returns `1` because its denominator pointer is taken from `_q->b`
(`TC * a = &_q->b[3*i];`), so each section contributes `Hb/Hb`; the
spec's formula, with the denominator taken from the stored `a` array,
gives `1/2` on this filter. -/
theorem iirfilt_freqresponse_sos_alias_eval :
    ((iirfilt_create_sos [(1 : ℂ), 0, 0] [2, 0, 0] 1).map
        (fun q => (iirfilt_freqresponse_sos q 0,
          iirfilt_freqresponse_sos_specref q 0))
      = Except.ok (1, 1 / 2)) ∧ (1 : ℂ) ≠ 1 / 2 := by
  refine ⟨?_, by norm_num⟩
  simp only [iirfilt_create_sos, one_ne_zero, if_false, Except.map]
  simp only [Except.ok.injEq, Prod.mk.injEq]
  constructor
  · simp [iirfilt_freqresponse_sos, List.range_succ, List.range_zero]
  · simp [iirfilt_freqresponse_sos_specref, List.range_succ,
      List.range_zero]
